import Mathlib

/-!
Verification of the Intergalactic Tic-Tac-Toe rules engine (27×27
three-level ultimate tic-tac-toe).

The definitions below are a shallow embedding of `game_logic.py` and
`game_persistence.py`.  Grids are total functions from integer
coordinates to the mark strings used by the program (`""`, `"X"`, `"O"`);
every grid access performed by the program happens after its bounds
checks, so the functional representation agrees with the Python lists on
every index the program ever touches.  Coordinates are integers because
`make_move` accepts (and must reject) arbitrary, possibly negative,
coordinates.
-/

namespace Galactic

/-- The engine state: the nine fields of the Python `GameLogic` object. -/
structure GameState where
  board : Int → Int → String
  blocks_3x3 : Int → Int → String
  blocks_9x9 : Int → Int → String
  blocks_state_3x3 : Int → Int → Int → Int → String
  blocks_state_9x9 : Int → Int → Int → Int → String
  current_player : String
  active_9x9_block : Option (Int × Int)
  active_3x3_block : Option (Int × Int)
  status : String

/-- Pointwise update of a two-dimensional grid. -/
def upd2 (f : Int → Int → String) (r c : Int) (v : String) : Int → Int → String :=
  fun i j => if i = r ∧ j = c then v else f i j

/-- Pointwise update of a four-dimensional grid. -/
def upd4 (f : Int → Int → Int → Int → String) (a b c d : Int) (v : String) :
    Int → Int → Int → Int → String :=
  fun i j k l => if i = a ∧ j = b ∧ k = c ∧ l = d then v else f i j k l

/-- `GameLogic.__init__`: the fresh game state. -/
def init_state : GameState where
  board := fun _ _ => ""
  blocks_3x3 := fun _ _ => ""
  blocks_9x9 := fun _ _ => ""
  blocks_state_3x3 := fun _ _ _ _ => ""
  blocks_state_9x9 := fun _ _ _ _ => ""
  current_player := "X"
  active_9x9_block := none
  active_3x3_block := none
  status := "playing"

/-- `GameLogic.reset_game`: reinitializes the state. -/
def reset_game (_g : GameState) : GameState := init_state

/-- Python's `range(3)`. -/
def range3 : List Int := [0, 1, 2]

/-- `GameLogic._check_block_3x3_win`: rows, columns and the two diagonals
of the cached 3×3 cell grid of one micro block, scanned for the current
player's mark. -/
def _check_block_3x3_win (g : GameState) (block_row block_col : Int) : Bool :=
  let block := g.blocks_state_3x3 block_row block_col
  let player := g.current_player
  range3.any (fun r => range3.all (fun c => block r c == player)) ||
  range3.any (fun c => range3.all (fun r => block r c == player)) ||
  range3.all (fun i => block i i == player) ||
  range3.all (fun i => block i (2 - i) == player)

/-- `GameLogic._check_block_9x9_win`: the same line scan over the 3×3 grid
of micro-block winners cached for one macro block. -/
def _check_block_9x9_win (g : GameState) (block_row block_col : Int) : Bool :=
  let block := g.blocks_state_9x9 block_row block_col
  let player := g.current_player
  range3.any (fun r => range3.all (fun c => block r c == player)) ||
  range3.any (fun c => range3.all (fun r => block r c == player)) ||
  range3.all (fun i => block i i == player) ||
  range3.all (fun i => block i (2 - i) == player)

/-- `GameLogic._check_game_win`: the same line scan over the top-level 3×3
grid of macro-block winners. -/
def _check_game_win (g : GameState) : Bool :=
  let block := g.blocks_9x9
  let player := g.current_player
  range3.any (fun r => range3.all (fun c => block r c == player)) ||
  range3.any (fun c => range3.all (fun r => block r c == player)) ||
  range3.all (fun i => block i i == player) ||
  range3.all (fun i => block i (2 - i) == player)

/-- The inner cell loop of `get_valid_moves`: all empty cells of the micro
block whose global block coordinates are `(gr, gc)`. -/
def cells_of_block (g : GameState) (gr gc : Int) : List (Int × Int) :=
  range3.flatMap (fun dr => range3.filterMap (fun dc =>
    if g.board (gr * 3 + dr) (gc * 3 + dc) = "" then
      some (gr * 3 + dr, gc * 3 + dc)
    else none))

/-- The unrestricted middle loop of `get_valid_moves`: all micro blocks of
macro block `(b9r, b9c)` that have no winner yet (local coordinates). -/
def enum_blocks_3x3 (g : GameState) (b9r b9c : Int) : List (Int × Int) :=
  range3.flatMap (fun i => range3.filterMap (fun j =>
    if g.blocks_3x3 (b9r * 3 + i) (b9c * 3 + j) = "" then some (i, j) else none))

/-- Micro-block selection of `get_valid_moves` inside macro `(b9r, b9c)`:
the pinned micro block when the active selectors apply, otherwise every
unwon micro block of the macro. -/
def blocks_3x3_of (g : GameState) (b9r b9c : Int) : List (Int × Int) :=
  match g.active_3x3_block with
  | some m =>
    if g.active_9x9_block = some (b9r, b9c) then [m] else enum_blocks_3x3 g b9r b9c
  | none => enum_blocks_3x3 g b9r b9c

/-- Macro-block selection of `get_valid_moves`: the pinned macro block, or
every macro block without a winner when the selector is `None`. -/
def blocks_9x9_list (g : GameState) : List (Int × Int) :=
  match g.active_9x9_block with
  | none =>
    range3.flatMap (fun i => range3.filterMap (fun j =>
      if g.blocks_9x9 i j = "" then some (i, j) else none))
  | some b => [b]

/-- `GameLogic.get_valid_moves`. -/
def get_valid_moves (g : GameState) : List (Int × Int) :=
  if g.status ≠ "playing" then []
  else
    (blocks_9x9_list g).flatMap (fun b9 =>
      (blocks_3x3_of g b9.1 b9.2).flatMap (fun b3 =>
        cells_of_block g (b9.1 * 3 + b3.1) (b9.2 * 3 + b3.2)))

/-- Lines 240–241 of `make_move`: flip `current_player`. -/
def switch_player (g : GameState) : GameState :=
  { g with current_player := if g.current_player = "X" then "O" else "X" }

/-- Lines 195–221 of `make_move`: the selector update after a micro-block
win.  `b3rl b3cl` is the won micro block's local position inside its macro
block, `lr lc` the winning cell's local position inside the micro block. -/
def set_selectors_micro_win (g : GameState) (b3rl b3cl lr lc : Int) : GameState :=
  if g.blocks_9x9 b3rl b3cl ≠ "" then
    { g with active_9x9_block := none, active_3x3_block := none }
  else
    if g.blocks_3x3 (b3rl * 3 + lr) (b3cl * 3 + lc) ≠ "" then
      { g with active_9x9_block := some (b3rl, b3cl), active_3x3_block := none }
    else
      { g with active_9x9_block := some (b3rl, b3cl), active_3x3_block := some (lr, lc) }

/-- Lines 222–238 of `make_move`: the selector update when the move wins no
micro block.  `b9r b9c` is the move's macro block, `lr lc` the cell's local
position inside its micro block. -/
def set_selectors_no_win (g : GameState) (b9r b9c lr lc : Int) : GameState :=
  if g.blocks_3x3 (b9r * 3 + lr) (b9c * 3 + lc) ≠ "" then
    { g with active_9x9_block := some (b9r, b9c), active_3x3_block := none }
  else
    { g with active_9x9_block := some (b9r, b9c), active_3x3_block := some (lr, lc) }

/-- Lines 164–243 of `make_move`: the mutation performed once all six
precondition checks have passed.  Returns the state after the move; every
path through this function corresponds to `make_move` returning `True`. -/
def apply_move (g : GameState) (row col : Int) : GameState :=
  let block_9x9_row := row / 9
  let block_9x9_col := col / 9
  let block_3x3_row_global := row / 3
  let block_3x3_col_global := col / 3
  let block_3x3_row_local := (row / 3) % 3
  let block_3x3_col_local := (col / 3) % 3
  let local_row := row % 3
  let local_col := col % 3
  let g1 : GameState :=
    { g with
      board := upd2 g.board row col g.current_player
      blocks_state_3x3 :=
        upd4 g.blocks_state_3x3 block_3x3_row_global block_3x3_col_global
          local_row local_col g.current_player }
  if _check_block_3x3_win g1 block_3x3_row_global block_3x3_col_global then
    let g2 : GameState :=
      { g1 with
        blocks_3x3 :=
          upd2 g1.blocks_3x3 block_3x3_row_global block_3x3_col_global g1.current_player
        blocks_state_9x9 :=
          upd4 g1.blocks_state_9x9 block_9x9_row block_9x9_col
            block_3x3_row_local block_3x3_col_local g1.current_player }
    if _check_block_9x9_win g2 block_9x9_row block_9x9_col then
      let g3 : GameState :=
        { g2 with blocks_9x9 := upd2 g2.blocks_9x9 block_9x9_row block_9x9_col g2.current_player }
      if _check_game_win g3 then
        { g3 with status := g3.current_player ++ "_wins" }
      else
        switch_player
          (set_selectors_micro_win g3 block_3x3_row_local block_3x3_col_local local_row local_col)
    else
      switch_player
        (set_selectors_micro_win g2 block_3x3_row_local block_3x3_col_local local_row local_col)
  else
    switch_player (set_selectors_no_win g1 block_9x9_row block_9x9_col local_row local_col)

/-- `GameLogic.make_move`: the six sequential precondition checks of lines
116–162, each returning `False` with the state untouched, followed by the
mutation `apply_move`. -/
def make_move (g : GameState) (row col : Int) : Bool × GameState :=
  if g.status ≠ "playing" then (false, g)
  else if row < 0 ∨ 27 ≤ row ∨ col < 0 ∨ 27 ≤ col then (false, g)
  else if g.board row col ≠ "" then (false, g)
  else
    let block_9x9_row := row / 9
    let block_9x9_col := col / 9
    let block_3x3_row_global := row / 3
    let block_3x3_col_global := col / 3
    let block_3x3_row_local := (row / 3) % 3
    let block_3x3_col_local := (col / 3) % 3
    let check4_fail : Bool :=
      match g.active_9x9_block with
      | some p => decide (block_9x9_row ≠ p.1 ∨ block_9x9_col ≠ p.2)
      | none => false
    if check4_fail then (false, g)
    else
      let check5_fail : Bool :=
        if block_9x9_row < 3 ∧ block_9x9_col < 3 then
          if g.blocks_9x9 block_9x9_row block_9x9_col = "" then
            match g.active_3x3_block with
            | some p => decide (block_3x3_row_local ≠ p.1 ∨ block_3x3_col_local ≠ p.2)
            | none => false
          else false
        else false
      if check5_fail then (false, g)
      else if g.blocks_3x3 block_3x3_row_global block_3x3_col_global ≠ "" then (false, g)
      else (true, apply_move g row col)

/-- Fold a list of moves over a state, recording whether every call to
`make_move` returned `True`. -/
def play (g : GameState) : List (Int × Int) → GameState × Bool
  | [] => (g, true)
  | m :: ms =>
    let p := make_move g m.1 m.2
    let rest := play p.2 ms
    (rest.1, p.1 && rest.2)

/-- The states reachable from a fresh game through the engine's mutators. -/
inductive Reachable : GameState → Prop
| init : Reachable init_state
| move (g : GameState) (row col : Int) : Reachable g → Reachable (make_move g row col).2
| reset (g : GameState) : Reachable g → Reachable (reset_game g)

/-- The persisted snapshot record written by `GamePersistence.save_game`
and read back by `GamePersistence.load_game` (the JSON file's fields). -/
structure GameData where
  player_x_name : String
  player_o_name : String
  current_player : String
  status : String
  board : Int → Int → String
  blocks_3x3 : Int → Int → String
  blocks_9x9 : Int → Int → String
  blocks_state_3x3 : Int → Int → Int → Int → String
  blocks_state_9x9 : Int → Int → Int → Int → String
  active_9x9_block : Option (Int × Int)
  active_3x3_block : Option (Int × Int)
  saved_at : String

/-- `GamePersistence.save_game`: the snapshot record assembled from the
engine state (player names and timestamp are metadata carried alongside). -/
def save_game (g : GameState) (player_x_name player_o_name saved_at : String) : GameData where
  player_x_name := player_x_name
  player_o_name := player_o_name
  current_player := g.current_player
  status := g.status
  board := g.board
  blocks_3x3 := g.blocks_3x3
  blocks_9x9 := g.blocks_9x9
  blocks_state_3x3 := g.blocks_state_3x3
  blocks_state_9x9 := g.blocks_state_9x9
  active_9x9_block := g.active_9x9_block
  active_3x3_block := g.active_3x3_block
  saved_at := saved_at

/-- `GamePersistence.load_game`: a fresh `GameLogic` instance whose nine
engine fields are then overwritten, field for field, from the record. -/
def load_game (data : GameData) : GameState × String × String :=
  let game := init_state
  let game :=
    { game with
      current_player := data.current_player
      status := data.status
      board := data.board
      blocks_3x3 := data.blocks_3x3
      blocks_9x9 := data.blocks_9x9
      blocks_state_3x3 := data.blocks_state_3x3
      blocks_state_9x9 := data.blocks_state_9x9
      active_9x9_block := data.active_9x9_block
      active_3x3_block := data.active_3x3_block }
  (game, data.player_x_name, data.player_o_name)

/-! ### The six precondition checks of §4.1, as individual predicates -/

/-- Check 1: `status` must be `playing`. -/
def check_status (g : GameState) : Bool :=
  decide (g.status = "playing")

/-- Check 2: the coordinates lie within the 27×27 board. -/
def check_bounds (row col : Int) : Bool :=
  decide (0 ≤ row ∧ row < 27 ∧ 0 ≤ col ∧ col < 27)

/-- Check 3: the target cell is empty. -/
def check_cell_empty (g : GameState) (row col : Int) : Bool :=
  decide (g.board row col = "")

/-- Check 4: when a macro block is pinned, the move's macro block equals it. -/
def check_active_9x9 (g : GameState) (row col : Int) : Bool :=
  match g.active_9x9_block with
  | some p => decide (row / 9 = p.1 ∧ col / 9 = p.2)
  | none => true

/-- Check 5: when the move's macro block has no winner and a micro block is
pinned, the move's micro block local position equals it. -/
def check_active_micro (g : GameState) (row col : Int) : Bool :=
  if row / 9 < 3 ∧ col / 9 < 3 then
    if g.blocks_9x9 (row / 9) (col / 9) = "" then
      match g.active_3x3_block with
      | some p => decide ((row / 3) % 3 = p.1 ∧ (col / 3) % 3 = p.2)
      | none => true
    else true
  else true

/-- Check 6: the move's micro block has no winner. -/
def check_micro_unwon (g : GameState) (row col : Int) : Bool :=
  decide (g.blocks_3x3 (row / 3) (col / 3) = "")

/-- All six precondition checks of §4.1 together. -/
def move_allowed (g : GameState) (row col : Int) : Bool :=
  check_status g && check_bounds row col && check_cell_empty g row col &&
  check_active_9x9 g row col && check_active_micro g row col &&
  check_micro_unwon g row col

/-- The opposite player (line 241: `"O" if current_player == "X" else "X"`). -/
def other_player (p : String) : String :=
  if p = "X" then "O" else "X"

/-- Modelled from the spec's words (§4.2): `line_complete(grid_3x3, mark)`
holds iff any of the 3 rows, 3 columns, or 2 diagonals of the 3×3 grid are
all equal to `mark`.  Used only to compare the three win checks against
the specification's single primitive. -/
def line_complete (grid : Int → Int → String) (mark : String) : Bool :=
  decide (∃ i ∈ range3, ∀ j ∈ range3, grid i j = mark) ||
  decide (∃ j ∈ range3, ∀ i ∈ range3, grid i j = mark) ||
  decide (∀ i ∈ range3, grid i i = mark) ||
  decide (∀ i ∈ range3, grid i (2 - i) = mark)

/-- The invariants maintained by the engine: the current player is a real
player, a pinned micro block implies a pinned macro block, every pinned
selector is in range, and while the game is running a pinned micro block
has no winner yet. -/
def Inv (g : GameState) : Prop :=
  (g.current_player = "X" ∨ g.current_player = "O") ∧
  (g.active_9x9_block = none → g.active_3x3_block = none) ∧
  (∀ a b : Int, g.active_9x9_block = some (a, b) → 0 ≤ a ∧ a < 3 ∧ 0 ≤ b ∧ b < 3) ∧
  (∀ m n : Int, g.active_3x3_block = some (m, n) → 0 ≤ m ∧ m < 3 ∧ 0 ≤ n ∧ n < 3) ∧
  (g.status = "playing" →
    ∀ a b m n : Int, g.active_9x9_block = some (a, b) → g.active_3x3_block = some (m, n) →
      g.blocks_3x3 (a * 3 + m) (b * 3 + n) = "")

/-! ### Concrete games and states used as counterexamples and witnesses -/

/-- A legal 31-move game: X wins the micro blocks at local positions
(0,1), (0,2) and finally (0,0) of macro block (0,0), winning that macro
block; the redirection target (0,0) is the macro block just won, so both
selectors become `None` while empty cells in unwon micro blocks of the won
macro block remain. -/
def moves_s1 : List (Int × Int) :=
  [(0, 3), (0, 1), (1, 3), (3, 1), (2, 3),
   (7, 10), (3, 12), (2, 9), (6, 9), (2, 10), (6, 12), (2, 11),
   (7, 7), (3, 5), (0, 6), (0, 2), (1, 6), (3, 2), (2, 6),
   (7, 19), (3, 21), (1, 18), (3, 18), (2, 18), (6, 18), (0, 18),
   (2, 0), (6, 0), (2, 1), (6, 3), (2, 2)]

/-- 21 further legal moves continuing `moves_s1`: O wins the micro blocks
at local positions (1,0), (1,1), (1,2) of the already-won macro block
(0,0) — `make_move` never rejects a move for being inside a won macro
block — completing O's middle row there and overwriting
`blocks_9x9[0][0]` from `"X"` to `"O"` on the final move. -/
def moves_overwrite : List (Int × Int) :=
  [(3, 0),
   (9, 1), (9, 3), (9, 2), (9, 6), (9, 0),
   (3, 3), (8, 6), (3, 4),
   (9, 12), (9, 9), (10, 10), (12, 12), (10, 11), (12, 15), (10, 9),
   (3, 6), (6, 1), (3, 7), (6, 2), (3, 8)]

/-- A state one move away from X winning the game: X already owns macro
blocks (0,1) and (0,2), and needs only the cell (0,0) to win micro block
(0,0), macro block (0,0) and the game. -/
def c2_state : GameState :=
  { init_state with
    board := upd2 (upd2 init_state.board 0 1 "X") 0 2 "X"
    blocks_state_3x3 := upd4 (upd4 init_state.blocks_state_3x3 0 0 0 1 "X") 0 0 0 2 "X"
    blocks_state_9x9 := upd4 (upd4 init_state.blocks_state_9x9 0 0 0 1 "X") 0 0 0 2 "X"
    blocks_9x9 := upd2 (upd2 init_state.blocks_9x9 0 1 "X") 0 2 "X" }

/-- A state where X's move at (0,0) wins micro block (0,0) without ending
the game. -/
def c5_state : GameState :=
  { init_state with
    board := upd2 (upd2 init_state.board 0 1 "X") 0 2 "X"
    blocks_state_3x3 := upd4 (upd4 init_state.blocks_state_3x3 0 0 0 1 "X") 0 0 0 2 "X" }

/-- A fresh state with one filled cell and one decided micro block. -/
def marked_state : GameState :=
  { init_state with
    board := upd2 init_state.board 0 0 "X"
    blocks_3x3 := upd2 init_state.blocks_3x3 0 0 "X" }

/-- A state whose game is already decided. -/
def won_state : GameState :=
  { init_state with status := "X_wins" }

/-! ### The characterization of `make_move` by the six checks -/

theorem make_move_eq (g : GameState) (row col : Int) :
    make_move g row col =
      if move_allowed g row col then (true, apply_move g row col) else (false, g) := by
  by_cases h1 : g.status = "playing"
  case neg =>
    simp [make_move, move_allowed, check_status, h1]
  by_cases h2 : 0 ≤ row ∧ row < 27 ∧ 0 ≤ col ∧ col < 27
  case neg =>
    have h2' : row < 0 ∨ 27 ≤ row ∨ col < 0 ∨ 27 ≤ col := by omega
    simp [make_move, move_allowed, check_bounds, h1, h2, h2']
  obtain ⟨hr0, hr1, hc0, hc1⟩ := h2
  have h2' : ¬ (row < 0 ∨ 27 ≤ row ∨ col < 0 ∨ 27 ≤ col) := by omega
  have h2t : check_bounds row col = true := by
    simp [check_bounds]; omega
  by_cases h3 : g.board row col = ""
  case neg =>
    simp [make_move, move_allowed, check_cell_empty, h1, h2', h3]
  have hb9 : row / 9 < 3 ∧ col / 9 < 3 := by omega
  rcases h9 : g.active_9x9_block with _ | ⟨pa, pb⟩
  · by_cases hbw : g.blocks_9x9 (row / 9) (col / 9) = ""
    case neg =>
      by_cases h6 : g.blocks_3x3 (row / 3) (col / 3) = "" <;>
        simp [make_move, move_allowed, check_status, check_cell_empty, check_active_9x9,
          check_active_micro, check_micro_unwon, h1, h2t, h2', h3, h9, hb9, hbw, h6]
    rcases hq : g.active_3x3_block with _ | ⟨qa, qb⟩
    · by_cases h6 : g.blocks_3x3 (row / 3) (col / 3) = "" <;>
        simp [make_move, move_allowed, check_status, check_cell_empty, check_active_9x9,
          check_active_micro, check_micro_unwon, h1, h2t, h2', h3, h9, hq, hb9, hbw, h6]
    · by_cases h5 : (row / 3) % 3 = qa ∧ (col / 3) % 3 = qb
      case neg =>
        have e5 : ((row / 3) % 3 ≠ qa ∨ (col / 3) % 3 ≠ qb) := by tauto
        simp [make_move, move_allowed, check_status, check_cell_empty, check_active_9x9,
          check_active_micro, check_micro_unwon, h1, h2t, h2', h3, h9, hq, hb9, hbw, h5, e5]
      obtain ⟨h5a, h5b⟩ := h5
      subst h5a; subst h5b
      by_cases h6 : g.blocks_3x3 (row / 3) (col / 3) = "" <;>
        simp [make_move, move_allowed, check_status, check_cell_empty, check_active_9x9,
          check_active_micro, check_micro_unwon, h1, h2t, h2', h3, h9, hq, hb9, hbw, h6]
  · by_cases h4 : row / 9 = pa ∧ col / 9 = pb
    case neg =>
      have e4 : (row / 9 ≠ pa ∨ col / 9 ≠ pb) := by tauto
      simp [make_move, move_allowed, check_active_9x9, h1, h2', h3, h9, h4, e4]
    obtain ⟨h4a, h4b⟩ := h4
    subst h4a; subst h4b
    by_cases hbw : g.blocks_9x9 (row / 9) (col / 9) = ""
    case neg =>
      by_cases h6 : g.blocks_3x3 (row / 3) (col / 3) = "" <;>
        simp [make_move, move_allowed, check_status, check_cell_empty, check_active_9x9,
          check_active_micro, check_micro_unwon, h1, h2t, h2', h3, h9, hb9, hbw, h6]
    rcases hq : g.active_3x3_block with _ | ⟨qa, qb⟩
    · by_cases h6 : g.blocks_3x3 (row / 3) (col / 3) = "" <;>
        simp [make_move, move_allowed, check_status, check_cell_empty, check_active_9x9,
          check_active_micro, check_micro_unwon, h1, h2t, h2', h3, h9, hq, hb9, hbw, h6]
    · by_cases h5 : (row / 3) % 3 = qa ∧ (col / 3) % 3 = qb
      case neg =>
        have e5 : ((row / 3) % 3 ≠ qa ∨ (col / 3) % 3 ≠ qb) := by tauto
        simp [make_move, move_allowed, check_status, check_cell_empty, check_active_9x9,
          check_active_micro, check_micro_unwon, h1, h2t, h2', h3, h9, hq, hb9, hbw, h5, e5]
      obtain ⟨h5a, h5b⟩ := h5
      subst h5a; subst h5b
      by_cases h6 : g.blocks_3x3 (row / 3) (col / 3) = "" <;>
        simp [make_move, move_allowed, check_status, check_cell_empty, check_active_9x9,
          check_active_micro, check_micro_unwon, h1, h2t, h2', h3, h9, hq, hb9, hbw, h6]

/-- Unpacking of the boolean checks 1–3 and 6 from `move_allowed`. -/
theorem move_allowed_spec (g : GameState) (row col : Int)
    (h : move_allowed g row col = true) :
    g.status = "playing" ∧ 0 ≤ row ∧ row < 27 ∧ 0 ≤ col ∧ col < 27 ∧
    g.board row col = "" ∧ g.blocks_3x3 (row / 3) (col / 3) = "" := by
  simp only [move_allowed, check_status, check_bounds, check_cell_empty, check_micro_unwon,
    Bool.and_eq_true, decide_eq_true_eq] at h
  tauto

/-- Unpacking of check 4 from `move_allowed`. -/
theorem move_allowed_pin_9x9 (g : GameState) (row col : Int)
    (h : move_allowed g row col = true)
    (pa pb : Int) (h9 : g.active_9x9_block = some (pa, pb)) :
    row / 9 = pa ∧ col / 9 = pb := by
  simp only [move_allowed, Bool.and_eq_true] at h
  have h4 := h.1.1.2
  simp only [check_active_9x9, h9, decide_eq_true_eq] at h4
  exact h4

/-- Unpacking of check 5 from `move_allowed`. -/
theorem move_allowed_micro (g : GameState) (row col : Int)
    (h : move_allowed g row col = true)
    (hbw : g.blocks_9x9 (row / 9) (col / 9) = "")
    (qa qb : Int) (hq : g.active_3x3_block = some (qa, qb)) :
    (row / 3) % 3 = qa ∧ (col / 3) % 3 = qb := by
  obtain ⟨-, hr0, hr1, hc0, hc1, -, -⟩ := move_allowed_spec g row col h
  have hb9 : row / 9 < 3 ∧ col / 9 < 3 := by omega
  simp only [move_allowed, Bool.and_eq_true] at h
  have h5 := h.1.2
  simp [check_active_micro, hb9.1, hb9.2, hbw, hq] at h5
  exact h5

/-! ### Claim theorems: error handling, terminal states, persistence, player alternation -/

/-- Claim C4: whenever any of the six precondition checks of `make_move`
fails, `make_move` returns `false` and leaves every field of the state
exactly as it was (the embedding is total, so no exception can occur). -/
theorem C4_theorem (g : GameState) (row col : Int)
    (h : ¬ move_allowed g row col = true) :
    make_move g row col = (false, g) := by
  rw [make_move_eq, if_neg h]

theorem C4_witness :
    ¬ move_allowed init_state (-1) 0 = true ∧ make_move init_state (-1) 0 = (false, init_state) :=
  ⟨by decide, C4_theorem init_state (-1) 0 (by decide)⟩

/-- Claim C9: on any state whose status is not `playing`, every
`make_move` call returns `false` with the state unchanged, and
`get_valid_moves` returns the empty list. -/
theorem C9_theorem (g : GameState) (row col : Int) (h : g.status ≠ "playing") :
    make_move g row col = (false, g) ∧ get_valid_moves g = [] := by
  constructor
  · simp [make_move, h]
  · simp [get_valid_moves, h]

theorem C9_witness :
    make_move won_state 13 13 = (false, won_state) ∧ get_valid_moves won_state = [] :=
  C9_theorem won_state 13 13 (by decide)

/-- Claim C8: loading the snapshot produced by saving a state restores
all nine engine fields exactly: `load(save(state)) = state` field for
field. -/
theorem C8_theorem (g : GameState) (xname oname stamp : String) :
    (load_game (save_game g xname oname stamp)).1.board = g.board ∧
    (load_game (save_game g xname oname stamp)).1.blocks_3x3 = g.blocks_3x3 ∧
    (load_game (save_game g xname oname stamp)).1.blocks_9x9 = g.blocks_9x9 ∧
    (load_game (save_game g xname oname stamp)).1.blocks_state_3x3 = g.blocks_state_3x3 ∧
    (load_game (save_game g xname oname stamp)).1.blocks_state_9x9 = g.blocks_state_9x9 ∧
    (load_game (save_game g xname oname stamp)).1.current_player = g.current_player ∧
    (load_game (save_game g xname oname stamp)).1.status = g.status ∧
    (load_game (save_game g xname oname stamp)).1.active_9x9_block = g.active_9x9_block ∧
    (load_game (save_game g xname oname stamp)).1.active_3x3_block = g.active_3x3_block :=
  ⟨rfl, rfl, rfl, rfl, rfl, rfl, rfl, rfl, rfl⟩

/-- Claim C2 (amended): a `true`-returning `make_move` either leaves the
status unchanged and flips `current_player` to the opposite player, or —
exactly when the move wins the game — sets the winning status and leaves
`current_player` unchanged; a `false`-returning `make_move` changes
nothing. -/
theorem C2_theorem (g : GameState) (row col : Int) :
    ((make_move g row col).1 = false → (make_move g row col).2 = g) ∧
    ((make_move g row col).1 = true →
      ((make_move g row col).2.status = g.status ∧
        (make_move g row col).2.current_player = other_player g.current_player) ∨
      ((make_move g row col).2.status = g.current_player ++ "_wins" ∧
        (make_move g row col).2.current_player = g.current_player)) := by
  rw [make_move_eq]
  by_cases hma : move_allowed g row col = true
  · rw [if_pos hma]
    refine ⟨by simp, fun _ => ?_⟩
    simp only [apply_move, set_selectors_micro_win, set_selectors_no_win, switch_player,
      other_player]
    split_ifs <;> simp
  · rw [if_neg hma]
    exact ⟨fun _ => rfl, by simp⟩

theorem C2_counterexample :
    (make_move c2_state 0 0).1 = true ∧
    ¬ (make_move c2_state 0 0).2.current_player = other_player c2_state.current_player := by
  decide

theorem C2_witness :
    (make_move init_state 0 0).2.current_player = other_player init_state.current_player := by
  rcases (C2_theorem init_state 0 0).2 (by decide) with h | h
  · exact h.2
  · exact absurd h.1 (by decide)

/-! ### Claim theorems: write-once marks and the board mirror invariant -/

theorem apply_move_board (g : GameState) (row col : Int) :
    (apply_move g row col).board = upd2 g.board row col g.current_player := by
  simp only [apply_move, set_selectors_micro_win, set_selectors_no_win, switch_player]
  split_ifs <;> rfl

theorem apply_move_bs3x3 (g : GameState) (row col : Int) :
    (apply_move g row col).blocks_state_3x3 =
      upd4 g.blocks_state_3x3 (row / 3) (col / 3) (row % 3) (col % 3) g.current_player := by
  simp only [apply_move, set_selectors_micro_win, set_selectors_no_win, switch_player]
  split_ifs <;> rfl

theorem move_preserves_marks (g : GameState) (row col r c : Int) :
    (g.board r c ≠ "" → (make_move g row col).2.board r c = g.board r c) ∧
    (g.blocks_3x3 r c ≠ "" → (make_move g row col).2.blocks_3x3 r c = g.blocks_3x3 r c) := by
  rw [make_move_eq]
  by_cases hma : move_allowed g row col = true
  · rw [if_pos hma]
    obtain ⟨-, -, -, -, -, hcell, hmicro⟩ := move_allowed_spec g row col hma
    constructor
    · intro h
      rw [apply_move_board]
      simp only [upd2]
      split
      · next heq => obtain ⟨rfl, rfl⟩ := heq; exact absurd hcell h
      · rfl
    · intro h
      simp only [apply_move, set_selectors_micro_win, set_selectors_no_win, switch_player]
      split_ifs <;> simp only [upd2] <;>
        first
        | rfl
        | (split
           · next heq => obtain ⟨rfl, rfl⟩ := heq; exact absurd hmicro h
           · rfl)
  · rw [if_neg hma]
    exact ⟨fun _ => rfl, fun _ => rfl⟩

/-- Claim C3 (amended): along any sequence of `make_move` calls, a board
cell that holds a player mark never changes again, and a `blocks_3x3`
(micro-block winner) entry that holds a player mark is never overwritten.
(The corresponding statement for `blocks_9x9` is refuted by
the counterexample game.) -/
theorem C3_theorem (g : GameState) (ms : List (Int × Int)) (r c : Int) :
    (g.board r c ≠ "" → (play g ms).1.board r c = g.board r c) ∧
    (g.blocks_3x3 r c ≠ "" → (play g ms).1.blocks_3x3 r c = g.blocks_3x3 r c) := by
  induction ms generalizing g with
  | nil => exact ⟨fun _ => rfl, fun _ => rfl⟩
  | cons m ms ih =>
    simp only [play]
    constructor
    · intro h
      have step := (move_preserves_marks g m.1 m.2 r c).1 h
      have rest := (ih (make_move g m.1 m.2).2).1 (by rw [step]; exact h)
      rw [rest, step]
    · intro h
      have step := (move_preserves_marks g m.1 m.2 r c).2 h
      have rest := (ih (make_move g m.1 m.2).2).2 (by rw [step]; exact h)
      rw [rest, step]

theorem C3_witness :
    (play marked_state [(9, 9)]).1.board 0 0 = marked_state.board 0 0 ∧
    (play marked_state [(9, 9)]).1.blocks_3x3 0 0 = marked_state.blocks_3x3 0 0 :=
  ⟨(C3_theorem marked_state [(9, 9)] 0 0).1 (by decide),
   (C3_theorem marked_state [(9, 9)] 0 0).2 (by decide)⟩

set_option maxRecDepth 10000 in
theorem C3_counterexample :
    (play init_state moves_s1).2 = true ∧
    (play init_state moves_s1).1.blocks_9x9 0 0 = "X" ∧
    (play (play init_state moves_s1).1 moves_overwrite).2 = true ∧
    (play (play init_state moves_s1).1 moves_overwrite).1.blocks_9x9 0 0 = "O" := by
  decide

theorem mirror_step (g : GameState) (row col : Int)
    (h : ∀ r c : Int, 0 ≤ r → r < 27 → 0 ≤ c → c < 27 →
      g.board r c = g.blocks_state_3x3 (r / 3) (c / 3) (r % 3) (c % 3))
    (r c : Int) (hr0 : 0 ≤ r) (hr1 : r < 27) (hc0 : 0 ≤ c) (hc1 : c < 27) :
    (make_move g row col).2.board r c =
      (make_move g row col).2.blocks_state_3x3 (r / 3) (c / 3) (r % 3) (c % 3) := by
  rw [make_move_eq]
  by_cases hma : move_allowed g row col = true
  · rw [if_pos hma]
    obtain ⟨-, hrow0, hrow1, hcol0, hcol1, -, -⟩ := move_allowed_spec g row col hma
    rw [apply_move_board, apply_move_bs3x3]
    by_cases he : r = row ∧ c = col
    · obtain ⟨rfl, rfl⟩ := he
      simp [upd2, upd4]
    · have hne4 : ¬ (r / 3 = row / 3 ∧ c / 3 = col / 3 ∧ r % 3 = row % 3 ∧ c % 3 = col % 3) := by
        omega
      simp only [upd2, upd4, if_neg he, if_neg hne4]
      exact h r c hr0 hr1 hc0 hc1
  · rw [if_neg hma]
    exact h r c hr0 hr1 hc0 hc1

/-- Claim C10: in every state reachable from a fresh game through
`make_move` and `reset_game`, the 27×27 board and the cached per-micro-block
cell grids agree: `board[r][c] = blocks_state_3x3[r/3][c/3][r%3][c%3]`. -/
theorem C10_theorem :
    ∀ g : GameState, Reachable g → ∀ r c : Int, 0 ≤ r → r < 27 → 0 ≤ c → c < 27 →
      g.board r c = g.blocks_state_3x3 (r / 3) (c / 3) (r % 3) (c % 3) := by
  intro g hg
  induction hg with
  | init => intro r c _ _ _ _; rfl
  | move g' row col _ ih => exact mirror_step g' row col ih
  | reset g' _ _ => intro r c _ _ _ _; rfl

theorem C10_witness :
    init_state.board 5 7 = init_state.blocks_state_3x3 (5 / 3) (7 / 3) (5 % 3) (7 % 3) :=
  C10_theorem init_state Reachable.init 5 7 (by decide) (by decide) (by decide) (by decide)

/-! ### Claim theorems: the constraint-propagation selectors -/

theorem switch_active9 (g : GameState) :
    (switch_player g).active_9x9_block = g.active_9x9_block := rfl

theorem switch_active3 (g : GameState) :
    (switch_player g).active_3x3_block = g.active_3x3_block := rfl

theorem switch_blocks3 (g : GameState) :
    (switch_player g).blocks_3x3 = g.blocks_3x3 := rfl

theorem switch_blocks9 (g : GameState) :
    (switch_player g).blocks_9x9 = g.blocks_9x9 := rfl

theorem switch_status (g : GameState) :
    (switch_player g).status = g.status := rfl

set_option maxHeartbeats 1000000 in
/-- Claim C5: after a successful move that wins its micro block without
ending the game, the next macro selector is the won micro block's local
position — unless that target macro block already has a winner, in which
case both selectors become `None`; the micro selector inside the newly
selected macro block is the move's cell-local position (row%3, col%3),
or `None` when that target micro block already has a winner. -/
theorem C5_theorem (g : GameState) (row col : Int)
    (hp : g.current_player = "X" ∨ g.current_player = "O")
    (h1 : (make_move g row col).1 = true)
    (hw : (make_move g row col).2.blocks_3x3 (row / 3) (col / 3) ≠ "")
    (hs : (make_move g row col).2.status = "playing") :
    ((make_move g row col).2.blocks_9x9 ((row / 3) % 3) ((col / 3) % 3) ≠ "" →
      (make_move g row col).2.active_9x9_block = none ∧
      (make_move g row col).2.active_3x3_block = none) ∧
    ((make_move g row col).2.blocks_9x9 ((row / 3) % 3) ((col / 3) % 3) = "" →
      (make_move g row col).2.active_9x9_block = some ((row / 3) % 3, (col / 3) % 3) ∧
      ((make_move g row col).2.blocks_3x3
          (((row / 3) % 3) * 3 + row % 3) (((col / 3) % 3) * 3 + col % 3) ≠ "" →
        (make_move g row col).2.active_3x3_block = none) ∧
      ((make_move g row col).2.blocks_3x3
          (((row / 3) % 3) * 3 + row % 3) (((col / 3) % 3) * 3 + col % 3) = "" →
        (make_move g row col).2.active_3x3_block = some (row % 3, col % 3))) := by
  rw [make_move_eq] at h1 hw hs ⊢
  by_cases hma : move_allowed g row col = true
  · rw [if_pos hma] at hw hs ⊢
    obtain ⟨hstat, hr0, hr1, hc0, hc1, hcell, hmicro⟩ := move_allowed_spec g row col hma
    simp only [apply_move, set_selectors_micro_win, set_selectors_no_win, switch_player] at hw hs ⊢
    split_ifs at hw hs ⊢ <;>
      first
      | exact absurd hmicro hw
      | (rcases hp with hp | hp <;> rw [hp] at hs <;> exact absurd hs (by decide))
      | aesop
  · rw [if_neg hma] at h1
    exact absurd h1 (by simp)

theorem C5_witness :
    (make_move c5_state 0 0).2.active_9x9_block = some (0, 0) ∧
    (make_move c5_state 0 0).2.active_3x3_block = none := by
  have h := (C5_theorem c5_state 0 0 (by decide) (by decide) (by decide) (by decide)).2 (by decide)
  exact ⟨h.1, h.2.1 (by decide)⟩

set_option maxHeartbeats 1000000 in
/-- Claim C6: after a successful move that does not win its micro block,
the macro selector becomes the move's macro block (row/9, col/9), and the
micro selector becomes (row%3, col%3) unless the micro block at that local
position inside the same macro block already has a winner, in which case
it becomes `None`. -/
theorem C6_theorem (g : GameState) (row col : Int)
    (hp : g.current_player = "X" ∨ g.current_player = "O")
    (h1 : (make_move g row col).1 = true)
    (hnw : (make_move g row col).2.blocks_3x3 (row / 3) (col / 3) = "") :
    (make_move g row col).2.active_9x9_block = some (row / 9, col / 9) ∧
    ((make_move g row col).2.blocks_3x3
        ((row / 9) * 3 + row % 3) ((col / 9) * 3 + col % 3) ≠ "" →
      (make_move g row col).2.active_3x3_block = none) ∧
    ((make_move g row col).2.blocks_3x3
        ((row / 9) * 3 + row % 3) ((col / 9) * 3 + col % 3) = "" →
      (make_move g row col).2.active_3x3_block = some (row % 3, col % 3)) := by
  rw [make_move_eq] at h1 hnw ⊢
  by_cases hma : move_allowed g row col = true
  · rw [if_pos hma] at hnw ⊢
    obtain ⟨hstat, hr0, hr1, hc0, hc1, hcell, hmicro⟩ := move_allowed_spec g row col hma
    simp only [apply_move, set_selectors_micro_win, set_selectors_no_win, switch_active9,
      switch_active3, switch_blocks3, Prod.snd] at hnw ⊢
    split_ifs at hnw ⊢ <;>
      first
      | ((rcases hp with hp | hp <;> simp [upd2, hp, switch_blocks3] at hnw); done)
      | (simp only [switch_active9, switch_active3, switch_blocks3] at hnw ⊢ <;>
          constructor <;>
          simp_all [upd2])
  · rw [if_neg hma] at h1
    exact absurd h1 (by simp)

theorem C6_witness :
    (make_move init_state 0 0).2.active_9x9_block = some (0, 0) ∧
    (make_move init_state 0 0).2.active_3x3_block = some (0, 0) := by
  have h := C6_theorem init_state 0 0 (by decide) (by decide) (by decide)
  exact ⟨h.1, h.2.2 (by decide)⟩

/-! ### Claim theorems: the win evaluator -/

/-- C7: each of the three win checks equals the specification's single
`line_complete` primitive applied, for the mover's own mark, to the cell
grid of the micro block, the micro-winner grid of the macro block, and the
top-level macro-winner grid respectively. -/
theorem C7_theorem (g : GameState) (br bc : Int) :
    _check_block_3x3_win g br bc = line_complete (g.blocks_state_3x3 br bc) g.current_player ∧
    _check_block_9x9_win g br bc = line_complete (g.blocks_state_9x9 br bc) g.current_player ∧
    _check_game_win g = line_complete g.blocks_9x9 g.current_player := by
  refine ⟨?_, ?_, ?_⟩ <;>
    (rw [Bool.eq_iff_iff]
     simp [_check_block_3x3_win, _check_block_9x9_win, _check_game_win, line_complete, range3])

/-! ### Claim theorems: the legality predicate against the move enumerator -/

theorem mem_cells_of_block (g : GameState) (gr gc r c : Int) :
    (r, c) ∈ cells_of_block g gr gc ↔
      gr * 3 ≤ r ∧ r < gr * 3 + 3 ∧ gc * 3 ≤ c ∧ c < gc * 3 + 3 ∧ g.board r c = "" := by
  constructor
  · intro h
    simp only [cells_of_block, List.mem_flatMap, List.mem_filterMap] at h
    obtain ⟨dr, hdr, dc, hdc, h⟩ := h
    have hdr' : dr = 0 ∨ dr = 1 ∨ dr = 2 := by simpa [range3] using hdr
    have hdc' : dc = 0 ∨ dc = 1 ∨ dc = 2 := by simpa [range3] using hdc
    split at h
    · next hb =>
      simp only [Option.some.injEq, Prod.mk.injEq] at h
      obtain ⟨rfl, rfl⟩ := h
      exact ⟨by omega, by omega, by omega, by omega, hb⟩
    · simp at h
  · rintro ⟨h1, h2, h3, h4, hb⟩
    simp only [cells_of_block, List.mem_flatMap, List.mem_filterMap]
    refine ⟨r - gr * 3, by simp [range3]; omega, c - gc * 3, by simp [range3]; omega, ?_⟩
    rw [show gr * 3 + (r - gr * 3) = r by ring, show gc * 3 + (c - gc * 3) = c by ring,
      if_pos hb]
  
theorem mem_enum_blocks_3x3 (g : GameState) (b9r b9c i j : Int) :
    (i, j) ∈ enum_blocks_3x3 g b9r b9c ↔
      0 ≤ i ∧ i < 3 ∧ 0 ≤ j ∧ j < 3 ∧ g.blocks_3x3 (b9r * 3 + i) (b9c * 3 + j) = "" := by
  constructor
  · intro h
    simp only [enum_blocks_3x3, List.mem_flatMap, List.mem_filterMap] at h
    obtain ⟨a, ha, b, hb, h⟩ := h
    have ha' : a = 0 ∨ a = 1 ∨ a = 2 := by simpa [range3] using ha
    have hb' : b = 0 ∨ b = 1 ∨ b = 2 := by simpa [range3] using hb
    split at h
    · next hw =>
      simp only [Option.some.injEq, Prod.mk.injEq] at h
      obtain ⟨rfl, rfl⟩ := h
      exact ⟨by omega, by omega, by omega, by omega, hw⟩
    · simp at h
  · rintro ⟨h1, h2, h3, h4, hw⟩
    simp only [enum_blocks_3x3, List.mem_flatMap, List.mem_filterMap]
    refine ⟨i, by simp [range3]; omega, j, by simp [range3]; omega, ?_⟩
    rw [if_pos hw]

theorem mem_blocks_9x9_list_none (g : GameState) (h : g.active_9x9_block = none) (i j : Int) :
    (i, j) ∈ blocks_9x9_list g ↔
      0 ≤ i ∧ i < 3 ∧ 0 ≤ j ∧ j < 3 ∧ g.blocks_9x9 i j = "" := by
  constructor
  · intro hm
    simp only [blocks_9x9_list, h, List.mem_flatMap, List.mem_filterMap] at hm
    obtain ⟨a, ha, b, hb, hm⟩ := hm
    have ha' : a = 0 ∨ a = 1 ∨ a = 2 := by simpa [range3] using ha
    have hb' : b = 0 ∨ b = 1 ∨ b = 2 := by simpa [range3] using hb
    split at hm
    · next hw =>
      simp only [Option.some.injEq, Prod.mk.injEq] at hm
      obtain ⟨rfl, rfl⟩ := hm
      exact ⟨by omega, by omega, by omega, by omega, hw⟩
    · simp at hm
  · rintro ⟨h1, h2, h3, h4, hw⟩
    simp only [blocks_9x9_list, h, List.mem_flatMap, List.mem_filterMap]
    refine ⟨i, by simp [range3]; omega, j, by simp [range3]; omega, ?_⟩
    rw [if_pos hw]


end Galactic

namespace Galactic

theorem switch_current (g : GameState) :
    (switch_player g).current_player = if g.current_player = "X" then "O" else "X" := rfl

theorem inv_init : Inv init_state := by
  refine ⟨Or.inl rfl, fun _ => rfl, ?_, ?_, ?_⟩ <;> intros <;> simp_all [init_state]

set_option maxHeartbeats 1000000 in
theorem inv_step (g : GameState) (row col : Int) (h : Inv g) :
    Inv (make_move g row col).2 := by
  obtain ⟨hp, i1, i2, i3, i4⟩ := h
  rw [make_move_eq]
  by_cases hma : move_allowed g row col = true
  case neg =>
    rw [if_neg hma]
    exact ⟨hp, i1, i2, i3, i4⟩
  rw [if_pos hma]
  obtain ⟨hstat, hr0, hr1, hc0, hc1, hcell, hmicro⟩ := move_allowed_spec g row col hma
  unfold Inv
  simp only [apply_move, set_selectors_micro_win, set_selectors_no_win, switch_active9,
    switch_active3, switch_blocks3, switch_blocks9, switch_status, switch_current]
  split_ifs <;>
    (try simp only [switch_active9, switch_active3, switch_blocks3, switch_blocks9,
      switch_status, switch_current]) <;>
    refine ⟨?_, ?_, ?_, ?_, ?_⟩ <;>
      first
      | ((rcases hp with hp | hp <;> (try dsimp only) <;> simp [hp]); done)
      | (intro a b hh; simp only [Option.some.injEq, Prod.mk.injEq] at hh;
         obtain ⟨rfl, rfl⟩ := hh; omega)
      | (intro hs; (try dsimp only at hs); rcases hp with hp | hp <;> rw [hp] at hs <;>
         exact absurd hs (by decide))
      | (intro hs a b m n h1 h2; simp only [Option.some.injEq, Prod.mk.injEq] at h1 h2;
         obtain ⟨rfl, rfl⟩ := h1; obtain ⟨rfl, rfl⟩ := h2;
         exact not_not.mp (by assumption))
      | ((try dsimp only); exact i2)
      | ((try dsimp only); exact i3)
      | ((try dsimp only); exact i1)
      | (simp; done)
      | (intros; omega)


theorem reachable_inv (g : GameState) (hg : Reachable g) : Inv g := by
  induction hg with
  | init => exact inv_init
  | move g' row col _ ih => exact inv_step g' row col ih
  | reset g' _ _ => exact inv_init

theorem move_allowed_intro (g : GameState) (row col : Int)
    (h1 : g.status = "playing") (h2 : 0 ≤ row ∧ row < 27 ∧ 0 ≤ col ∧ col < 27)
    (h3 : g.board row col = "")
    (h4 : ∀ pa pb : Int, g.active_9x9_block = some (pa, pb) → row / 9 = pa ∧ col / 9 = pb)
    (h5 : g.blocks_9x9 (row / 9) (col / 9) = "" →
      ∀ qa qb : Int, g.active_3x3_block = some (qa, qb) →
        (row / 3) % 3 = qa ∧ (col / 3) % 3 = qb)
    (h6 : g.blocks_3x3 (row / 3) (col / 3) = "") :
    move_allowed g row col = true := by
  simp only [move_allowed, Bool.and_eq_true]
  refine ⟨⟨⟨⟨⟨?_, ?_⟩, ?_⟩, ?_⟩, ?_⟩, ?_⟩
  · simp [check_status, h1]
  · simp only [check_bounds, decide_eq_true_eq]; omega
  · simp [check_cell_empty, h3]
  · rcases hh : g.active_9x9_block with _ | ⟨pa, pb⟩
    · simp [check_active_9x9, hh]
    · simp only [check_active_9x9, hh, decide_eq_true_eq]
      exact h4 pa pb hh
  · simp only [check_active_micro]
    split_ifs with hb hw
    · rcases hh : g.active_3x3_block with _ | ⟨qa, qb⟩
      · simp
      · simp only [decide_eq_true_eq]
        exact h5 hw qa qb hh
    · rfl
    · rfl
  · simp [check_micro_unwon, h6]

theorem valid_of_allowed (g : GameState) (r c : Int)
    (h1 : (make_move g r c).1 = true)
    (hbw : g.blocks_9x9 (r / 9) (c / 9) = "") :
    (r, c) ∈ get_valid_moves g := by
  rw [make_move_eq] at h1
  by_cases hma : move_allowed g r c = true
  case neg => rw [if_neg hma] at h1; exact absurd h1 (by simp)
  obtain ⟨hstat, hr0, hr1, hc0, hc1, hcell, hmicro⟩ := move_allowed_spec g r c hma
  rw [get_valid_moves, if_neg (fun hh => hh hstat)]
  simp only [List.mem_flatMap]
  refine ⟨(r / 9, c / 9), ?_, ((r / 3) % 3, (c / 3) % 3), ?_, ?_⟩
  · rcases h9 : g.active_9x9_block with _ | ⟨pa, pb⟩
    · rw [mem_blocks_9x9_list_none g h9]
      exact ⟨by omega, by omega, by omega, by omega, hbw⟩
    · obtain ⟨e1, e2⟩ := move_allowed_pin_9x9 g r c hma pa pb h9
      simp [blocks_9x9_list, h9, e1, e2]
  · rcases hq : g.active_3x3_block with _ | ⟨qa, qb⟩
    · simp only [blocks_3x3_of, hq]
      rw [mem_enum_blocks_3x3]
      refine ⟨by omega, by omega, by omega, by omega, ?_⟩
      rw [show (r / 9) * 3 + (r / 3) % 3 = r / 3 by omega,
        show (c / 9) * 3 + (c / 3) % 3 = c / 3 by omega]
      exact hmicro
    · by_cases h9e : g.active_9x9_block = some (r / 9, c / 9)
      · obtain ⟨e1, e2⟩ := move_allowed_micro g r c hma hbw qa qb hq
        simp [blocks_3x3_of, hq, h9e, e1, e2]
      · simp only [blocks_3x3_of, hq, if_neg h9e]
        rw [mem_enum_blocks_3x3]
        refine ⟨by omega, by omega, by omega, by omega, ?_⟩
        rw [show (r / 9) * 3 + (r / 3) % 3 = r / 3 by omega,
          show (c / 9) * 3 + (c / 3) % 3 = c / 3 by omega]
        exact hmicro
  · rw [mem_cells_of_block]
    exact ⟨by omega, by omega, by omega, by omega, hcell⟩

theorem allowed_of_valid (g : GameState) (hInv : Inv g) (r c : Int)
    (hm : (r, c) ∈ get_valid_moves g) : (make_move g r c).1 = true := by
  obtain ⟨-, i1, i2, i3, i4⟩ := hInv
  rw [get_valid_moves] at hm
  by_cases hstat : g.status = "playing"
  case neg => rw [if_pos hstat] at hm; simp at hm
  rw [if_neg (fun hh => hh hstat)] at hm
  simp only [List.mem_flatMap] at hm
  obtain ⟨⟨b9r, b9c⟩, hb9, ⟨b3r, b3c⟩, hb3, hcm⟩ := hm
  rw [mem_cells_of_block] at hcm
  obtain ⟨hcr1, hcr2, hcc1, hcc2, hboard⟩ := hcm
  rw [make_move_eq]
  rcases h9 : g.active_9x9_block with _ | ⟨pa, pb⟩
  · -- free macro choice: the macro list enumerates unwon macro blocks
    rw [mem_blocks_9x9_list_none g h9] at hb9
    obtain ⟨e1, e2, e3, e4, hb9w⟩ := hb9
    have hq : g.active_3x3_block = none := i1 h9
    simp only [blocks_3x3_of, hq] at hb3
    rw [mem_enum_blocks_3x3] at hb3
    obtain ⟨f1, f2, f3, f4, hb3w⟩ := hb3
    have hma : move_allowed g r c = true := by
      refine move_allowed_intro g r c hstat (by omega) hboard ?_ ?_ ?_
      · intro pa pb hh; rw [h9] at hh; cases hh
      · intro _ qa qb hh; rw [hq] at hh; cases hh
      · rw [show r / 3 = b9r * 3 + b3r by omega, show c / 3 = b9c * 3 + b3c by omega]
        exact hb3w
    rw [if_pos hma]
  · -- pinned macro block: the list is exactly [the pin]
    have hb9' : (b9r, b9c) = (pa, pb) := by
      simpa [blocks_9x9_list, h9] using hb9
    obtain ⟨rfl, rfl⟩ := Prod.mk.injEq .. ▸ hb9'
    obtain ⟨e1, e2, e3, e4⟩ := i2 b9r b9c h9
    rcases hq : g.active_3x3_block with _ | ⟨qa, qb⟩
    · -- no micro pin inside the pinned macro: enumeration path
      simp only [blocks_3x3_of, hq] at hb3
      rw [mem_enum_blocks_3x3] at hb3
      obtain ⟨f1, f2, f3, f4, hb3w⟩ := hb3
      have hma : move_allowed g r c = true := by
        refine move_allowed_intro g r c hstat (by omega) hboard ?_ ?_ ?_
        · intro pa' pb' hh
          rw [h9] at hh
          simp only [Option.some.injEq, Prod.mk.injEq] at hh
          obtain ⟨rfl, rfl⟩ := hh
          constructor <;> omega
        · intro _ qa' qb' hh
          rw [hq] at hh
          cases hh
        · rw [show r / 3 = b9r * 3 + b3r by omega, show c / 3 = b9c * 3 + b3c by omega]
          exact hb3w
      rw [if_pos hma]
    · -- pinned micro block: the micro list is exactly [the pin]
      have hb3' : (b3r, b3c) = (qa, qb) := by
        simpa [blocks_3x3_of, hq, h9] using hb3
      obtain ⟨rfl, rfl⟩ := Prod.mk.injEq .. ▸ hb3'
      obtain ⟨f1, f2, f3, f4⟩ := i3 b3r b3c hq
      have hwon := i4 hstat b9r b9c b3r b3c h9 hq
      have hma : move_allowed g r c = true := by
        refine move_allowed_intro g r c hstat (by omega) hboard ?_ ?_ ?_
        · intro pa' pb' hh
          rw [h9] at hh
          simp only [Option.some.injEq, Prod.mk.injEq] at hh
          obtain ⟨rfl, rfl⟩ := hh
          constructor <;> omega
        · intro _ qa' qb' hh
          rw [hq] at hh
          simp only [Option.some.injEq, Prod.mk.injEq] at hh
          obtain ⟨rfl, rfl⟩ := hh
          constructor <;> omega
        · rw [show r / 3 = b9r * 3 + b3r by omega, show c / 3 = b9c * 3 + b3c by omega]
          exact hwon
      rw [if_pos hma]


/-- Claim C1 (amended): on every reachable state, every coordinate listed
by `get_valid_moves` is accepted by `make_move`; conversely an accepted
`make_move` coordinate is listed by `get_valid_moves` whenever the move's
macro block has no winner.  (The unrestricted equivalence is refuted by the
counterexample game, which moves legally inside a won macro block.) -/
theorem C1_theorem (g : GameState) (hg : Reachable g) (r c : Int) :
    ((r, c) ∈ get_valid_moves g → (make_move g r c).1 = true) ∧
    ((make_move g r c).1 = true → g.blocks_9x9 (r / 9) (c / 9) = "" →
      (r, c) ∈ get_valid_moves g) :=
  ⟨allowed_of_valid g (reachable_inv g hg) r c,
   fun h1 hbw => valid_of_allowed g r c h1 hbw⟩

set_option maxRecDepth 10000 in
theorem C1_counterexample :
    (play init_state moves_s1).2 = true ∧
    (play init_state moves_s1).1.status = "playing" ∧
    (make_move (play init_state moves_s1).1 4 4).1 = true ∧
    ¬ ((4, 4) ∈ get_valid_moves (play init_state moves_s1).1) := by
  decide

theorem C1_witness :
    (0, 0) ∈ get_valid_moves init_state ∧ (make_move init_state 0 0).1 = true :=
  ⟨by decide, (C1_theorem init_state Reachable.init 0 0).1 (by decide)⟩

end Galactic
